import Mathlib

/-!
Verification development for the optimismo repository.

The repository analyses the optimism of a string: tokens (and n-grams) of the
input are gated through a future/prospection vocabulary, matched against a
weighted affect lexicon, and the matched weights are aggregated (plus an
intercept constant) into a single score.

Two implementations from the repository are embedded here:
  - the v4.0.1 implementation (the current one), and
  - the v2.0.1 implementation (src/index.js), whose full-output branch differs.

External collaborators (tokenizer, n-gram generator, locale translator, lexicon
data) are parameters of the embedding, collected in an Env structure, exactly
as the specification treats them (opaque functions and read-only data).

The lex-helpers module (getMatches, itemCount, doLex, prepareMatches) is a
dependency whose source is not part of src/; those functions are modelled from
the specification, each marked by a doc comment starting with
"Modelled from the spec:".

JavaScript dynamics are modelled shallowly: numbers are rationals extended
with infinities and NaN, and input values carry JavaScript truthiness.
-/

namespace Optimismo

/-- A JavaScript number: a finite rational, an infinity, or NaN. -/
inductive JNum where
  | fin (q : ℚ)
  | posInf
  | negInf
  | nan
deriving DecidableEq

/-- JavaScript strict less-than on numbers; any comparison with NaN is false. -/
def jlt : JNum → JNum → Bool
  | .fin a, .fin b => decide (a < b)
  | .fin _, .posInf => true
  | .negInf, .fin _ => true
  | .negInf, .posInf => true
  | _, _ => false

/-- JavaScript less-or-equal on numbers; any comparison with NaN is false. -/
def jle : JNum → JNum → Bool
  | .fin a, .fin b => decide (a ≤ b)
  | .fin _, .posInf => true
  | .negInf, .fin _ => true
  | .negInf, .negInf => true
  | .negInf, .posInf => true
  | .posInf, .posInf => true
  | _, _ => false

/-- JavaScript truthiness of a number: 0 and NaN are falsy. -/
def JNum.truthy : JNum → Bool
  | .fin q => decide (q ≠ 0)
  | .posInf => true
  | .negInf => true
  | .nan => false

/-- A JavaScript value, as far as the entry point inspects its input. -/
inductive JVal where
  | null
  | undef
  | str (s : String)
  | num (n : JNum)
  | bool (b : Bool)
deriving DecidableEq

/-- JavaScript truthiness: null, undefined, the empty string, 0, NaN and
false are falsy; everything else modelled here is truthy. -/
def JVal.truthy : JVal → Bool
  | .null => false
  | .undef => false
  | .str s => decide (s ≠ "")
  | .num n => n.truthy
  | .bool b => b

/-- JavaScript stringification (the `str.toString()` call of the source);
fraction formatting of rationals is a representation choice, irrelevant to
the claims, which never inspect the produced characters of numbers. -/
def JVal.toJsString : JVal → String
  | .null => "null"
  | .undef => "undefined"
  | .str s => s
  | .num (.fin q) => toString q
  | .num .posInf => "Infinity"
  | .num .negInf => "-Infinity"
  | .num .nan => "NaN"
  | .bool true => "true"
  | .bool false => "false"

/-- First-occurrence deduplication, the order-preserving semantics of the
JavaScript expression spreading a Set built from an array. -/
def dedupFirst : List String → List String
  | [] => []
  | x :: xs => x :: (dedupFirst xs).filter (fun y => decide (y ≠ x))

/-- ASCII lowercasing, the model of the JavaScript toLowerCase call. -/
def lowerStr (s : String) : String := ⟨s.data.map Char.toLower⟩

/-- Whitespace characters removed by trimming. -/
def isWS (c : Char) : Bool := c == ' ' || c == '\t' || c == '\n' || c == '\r'

/-- Whitespace trimming at both ends, the model of the JavaScript trim
call. -/
def trimStr (s : String) : String :=
  ⟨((s.data.dropWhile isWS).reverse.dropWhile isWS).reverse⟩

/-- Whether the first character list begins the second. -/
def startsWithL : List Char → List Char → Bool
  | [], _ => true
  | _ :: _, [] => false
  | p :: ps, c :: cs => p == c && startsWithL ps cs

/-- Whether the first character list occurs contiguously in the second. -/
def containsSub (pat : List Char) : List Char → Bool
  | [] => startsWithL pat []
  | c :: cs => startsWithL pat (c :: cs) || containsSub pat cs

/-- Case-insensitive containment, the semantics of the source expressions
matching a lowercase literal with the gi regular-expression flags. -/
def containsCI (s pat : String) : Bool :=
  containsSub (lowerStr pat).data (lowerStr s).data

/-- The intercept constant 5.037104721 from the source. -/
def intercept : ℚ := 5037104721 / 1000000000

/-- The external collaborators of the pipeline: the two lexica (read-only
data files), the tokenizer, the n-gram generator (arr2string composed with
simplengrams) and the locale translator, all treated as opaque, exactly as
the specification prescribes. -/
structure Env where
  futureLex : List String
  affectLex : List (String × ℚ)
  tokenizer : String → Option (List String)
  ngrams : String → Nat → List String
  uk2us : String → String

/-- The getFuture function of v4.0.1: deduplicate the token array keeping
first occurrences, then keep the words the future lexicon includes. -/
def getFuture (futureLex : List String) (arr : List String) : List String :=
  (dedupFirst arr).filter (fun w => futureLex.contains w)

/-- The getFuture function of v2.0.1 (src/index.js): iterate the future
lexicon keys in reverse and keep those present in the token array; the keys
of a JSON object are unique, so the duplicate check of the source is
redundant. -/
def getFutureV2 (futureLex : List String) (arr : List String) : List String :=
  futureLex.reverse.filter (fun w => arr.contains w)

/-- Modelled from the spec: the itemCount helper of the external lex-helpers
module reduces a token list to distinct terms, each annotated with its
occurrence count in the list. -/
def itemCount (arr : List String) : List (String × Nat) :=
  (dedupFirst arr).map (fun t => (t, arr.count t))

/-- Modelled from the spec: the getMatches helper of the external lex-helpers
module intersects the gated term-to-frequency map with the affect lexicon,
keeping a term when its weight w satisfies min < w and w ≤ max. -/
def getMatches (counts : List (String × Nat)) (affectLex : List (String × ℚ))
    (mn mx : JNum) : List (String × Nat × ℚ) :=
  counts.filterMap (fun tc =>
    match affectLex.lookup tc.1 with
    | some w => if jlt mn (.fin w) && jle (.fin w) mx then some (tc.1, tc.2, w) else none
    | none => none)

/-- Modelled from the spec: the per-match contribution of the aggregator in
the external lex-helpers module; frequency encoding normalises the weight by
frequency over total token count, any other encoding (binary, the default)
contributes the raw weight. -/
def contribution (encoding : String) (wc : Nat) (freq : Nat) (w : ℚ) : ℚ :=
  if encoding = "frequency" then ((freq : ℚ) / (wc : ℚ)) * w else w

/-- Modelled from the spec: optional rounding to a number of decimal places,
applied only at the formatting boundary; absent places leave the value
untouched. -/
def roundPlaces : Option Nat → ℚ → ℚ
  | none, q => q
  | some p, q => ((round (q * 10 ^ p) : ℤ) : ℚ) / 10 ^ p

/-- Modelled from the spec: the doLex aggregation of the external lex-helpers
module sums the encoded contributions of the matches, adds the intercept once,
and applies the optional rounding. -/
def doLex (ms : List (String × Nat × ℚ)) (intQ : ℚ) (encoding : String)
    (wc : Nat) (places : Option Nat) : ℚ :=
  roundPlaces places ((ms.map (fun m => contribution encoding wc m.2.1 m.2.2)).sum + intQ)

/-- Modelled from the spec: the sort key used by the matches formatter. -/
def sortKeyVal (sortKey : String) (m : String × Nat × ℚ) : ℚ :=
  if sortKey = "weight" then m.2.2 else if sortKey = "lex" then m.2.2 else (m.2.1 : ℚ)

/-- Insertion of a record into a descending-ordered list. -/
def insertDesc (key : (String × Nat × ℚ) → ℚ) (x : String × Nat × ℚ) :
    List (String × Nat × ℚ) → List (String × Nat × ℚ)
  | [] => [x]
  | y :: ys => if key y < key x then x :: y :: ys else y :: insertDesc key x ys

/-- Modelled from the spec: the matches formatter of the external lex-helpers
module returns the match records in descending order of the selected sort
key. -/
def prepareMatches (sortKey : String) (ms : List (String × Nat × ℚ)) :
    List (String × Nat × ℚ) :=
  ms.foldr (insertDesc (sortKeyVal sortKey)) []

/-- The value returned by a call: the null sentinel, undefined (a branch
that falls through without returning), the aggregate score, the match table,
or both. -/
inductive OptResult where
  | nullR
  | undefR
  | lexR (score : ℚ)
  | matchesR (recs : List (String × Nat × ℚ))
  | fullR (recs : List (String × Nat × ℚ)) (score : ℚ)
deriving DecidableEq

/-- The n-gram expansion loop of v4.0.1 (lines 148-162): for each requested
span length, in list order, the n-grams are prepended to the token sequence
when the pre-expansion word count reaches the length; a too-long length makes
the iteratee signal an error to async.each, which cancels the remaining
lengths (the final callback fires once with the error and the loop starts no
further items), so processing stops at the first skipped length. -/
def expandV4 (g : Nat → List String) (wc : Nat) : List Nat → List String → List String
  | [], tokens => tokens
  | n :: rest, tokens =>
    if wc < n then tokens else expandV4 g wc rest (g n ++ tokens)

/-- The caller-supplied nGrams option of v4.0.1: an array, or a scalar
(modelled as a number, the dynamic range sensible callers use). -/
inductive NGOpt where
  | arr (ns : List Nat)
  | scalar (n : JNum)
deriving DecidableEq

/-- The nGrams resolution of v4.0.1 (lines 105-115): absent gives [2, 3]; a
non-array loosely equal to 0 gives [0] (the disable marker); any other
non-array falls back to [2, 3] with a warning. -/
def resolveNGrams : Option NGOpt → List Nat
  | none => [2, 3]
  | some (.arr ns) => ns
  | some (.scalar n) => if n = .fin 0 then [0] else [2, 3]

/-- Whether a JavaScript value is a number (the typeof check of the source). -/
def isNum : JVal → Bool
  | .num _ => true
  | _ => false

/-- The Number() coercion of the source, on the modelled value space. -/
def jvalToNumber : JVal → JNum
  | .num n => n
  | .bool true => .fin 1
  | .bool false => .fin 0
  | .null => .fin 0
  | .undef => .nan
  | .str s => if s.trim = "" then .fin 0 else .nan

/-- Unwrap a value known to be a number. -/
def asNum : JVal → JNum
  | .num n => n
  | _ => .nan

/-- The min and max resolution of v4.0.1 (lines 95-104): an absent bound
defaults to the matching infinity; when either present value is not a number,
both are coerced with Number(), and since the typeof of the coercion result
is always number (NaN included), the subsequent re-check keeps the coerced
values. -/
def resolveMinMax (mnV mxV : Option JVal) : JNum × JNum :=
  let mx := mxV.getD (.num .posInf)
  let mn := mnV.getD (.num .negInf)
  if isNum mx && isNum mn then (asNum mn, asNum mx)
  else (jvalToNumber mn, jvalToNumber mx)

/-- The caller-supplied options object of v4.0.1. The logs and suppressLog
fields only control console logging, which has no modelled effect. -/
structure Opts where
  encoding : Option String
  locale : Option String
  logs : Option Int
  suppressLog : Option JVal
  max : Option JVal
  min : Option JVal
  nGrams : Option NGOpt
  noInt : Option JVal
  output : Option String
  places : Option Nat
  sortBy : Option String
  wcGrams : Option JVal

/-- The all-absent options object. -/
def noOpts : Opts :=
  ⟨none, none, none, none, none, none, none, none, none, none, none, none⟩

/-- The normalisation of v4.0.1 (lines 133-137): stringify, trim, lowercase,
and translate UK spellings when the locale matches gb case-insensitively. -/
def normalizeInput (env : Env) (locale : String) (v : JVal) : String :=
  let s0 := lowerStr (trimStr v.toJsString)
  if containsCI locale "gb" then env.uk2us s0 else s0

/-- The n-gram stage of v4.0.1 (line 148): expansion runs unless the resolved
span-length list contains the disable marker 0. -/
def expandTokens (env : Env) (s : String) (ns : List Nat) (tokens : List String) :
    List String :=
  if ns.contains 0 then tokens else expandV4 (env.ngrams s) tokens.length ns tokens

/-- The matching stage of v4.0.1 (lines 165-168): gate the tokens through the
future lexicon, count items, and match against the affect lexicon under the
weight bounds. -/
def pipelineMatches (env : Env) (mn mx : JNum) (tokens : List String) :
    List (String × Nat × ℚ) :=
  getMatches (itemCount (getFuture env.futureLex tokens)) env.affectLex mn mx

/-- The optimismo entry point of v4.0.1 (src/unnamed/part_001, lines 89-197):
option resolution, the falsy-input guard, normalisation, tokenization, n-gram
expansion, matching, and output dispatch on the output option. -/
def optimismo (env : Env) (v : JVal) (opts : Opts) : OptResult :=
  let encoding := opts.encoding.getD "binary"
  let locale := opts.locale.getD "US"
  let mm := resolveMinMax opts.min opts.max
  let ns := resolveNGrams opts.nGrams
  let intQ := if opts.noInt = some (.bool true) then (0 : ℚ) else intercept
  let output := opts.output.getD "lex"
  let sortKey := opts.sortBy.getD "freq"
  if !v.truthy then .nullR
  else
    let s := normalizeInput env locale v
    match env.tokenizer s with
    | none => .nullR
    | some toks =>
      let wc := toks.length
      let toks2 := expandTokens env s ns toks
      let wc2 := if opts.wcGrams = some (.bool true) then toks2.length else wc
      let ms := pipelineMatches env mm.1 mm.2 toks2
      if containsCI output "matches" then .matchesR (prepareMatches sortKey ms)
      else if containsCI output "full" then
        .fullR (prepareMatches sortKey ms) (doLex ms intQ encoding wc2 opts.places)
      else .lexR (doLex ms intQ encoding wc2 opts.places)

/-- The logical-or defaulting of v2.0.1 on string options: an absent or
empty (falsy) string takes the default. -/
def strOr : Option String → String → String
  | some s, d => if s = "" then d else s
  | none, d => d

/-- The logical-or defaulting of v2.0.1 on numeric options: an absent or
falsy (0 or NaN) number takes the default. -/
def numOr : Option JNum → JNum → JNum
  | some n, d => if n.truthy then n else d
  | none, d => d

/-- The logical-or defaulting of v2.0.1 on the places option: an absent or
zero (falsy) value takes the default. -/
def natOr : Option Nat → Nat → Nat
  | some n, d => if n = 0 then d else n
  | none, d => d

/-- The caller-supplied options object of v2.0.1 (src/index.js); nGrams and
wcGrams hold the strings true or false in that version. -/
structure OptsV2 where
  encoding : Option String
  max : Option JNum
  min : Option JNum
  nGrams : Option String
  output : Option String
  places : Option Nat
  sortBy : Option String
  wcGrams : Option String

/-- The optimismo entry point of v2.0.1 (src/index.js, lines 128-218): the
falsy-input guard, normalisation, tokenization, n-gram concatenation (gated
on word count above 2), matching through the future gate and the affect
lexicon, and output dispatch with exact string comparison. In the full
branch, the combined object is assembled inside the async.parallel completion
callback; the return statement there returns from that callback, not from
optimismo, so the assembled value is discarded and the branch falls through,
making the function return undefined. -/
def optimismoV2 (env : Env) (v : JVal) (opts : OptsV2) : OptResult :=
  if !v.truthy then .nullR
  else
    let s := lowerStr (trimStr v.toJsString)
    let encoding := strOr opts.encoding "binary"
    let output := strOr opts.output "lex"
    let sortKey := strOr opts.sortBy "freq"
    let mn := numOr opts.min .negInf
    let mx := numOr opts.max .posInf
    let places := natOr opts.places 9
    let ngramsFlag := strOr opts.nGrams "true"
    match env.tokenizer s with
    | none => .nullR
    | some toks =>
      let wc := toks.length
      let toks2 :=
        if ngramsFlag = "true" && decide (wc > 2) then
          toks ++ env.ngrams s 2 ++ env.ngrams s 3
        else toks
      let wc2 := if strOr opts.wcGrams "false" = "true" then toks2.length else wc
      let ms := getMatches (itemCount (getFutureV2 env.futureLex toks2)) env.affectLex mn mx
      if output = "matches" then .matchesR (prepareMatches sortKey ms)
      else if output = "full" then
        let _full := OptResult.fullR (prepareMatches sortKey ms)
          (doLex ms intercept encoding wc2 (some places))
        .undefR
      else .lexR (doLex ms intercept encoding wc2 (some places))

/-! ## Helper lemmas -/

/-- The v4.0.1 n-gram loop is characterised by the longest prefix of
requested span lengths that fit the word count: those n-gram groups are
prepended in reverse request order, the unigrams come last. -/
theorem expandV4_eq (g : Nat → List String) (wc : Nat) (ns : List Nat)
    (tokens : List String) :
    expandV4 g wc ns tokens =
      (((ns.takeWhile (fun n => decide (n ≤ wc))).reverse).map g).flatten ++ tokens := by
  induction ns generalizing tokens with
  | nil => simp [expandV4]
  | cons n rest ih =>
    by_cases h : wc < n
    · have hn : (decide (n ≤ wc)) = false := by
        simpa using Nat.not_le.mpr h
      simp [expandV4, h, List.takeWhile_cons, hn]
    · have hn : (decide (n ≤ wc)) = true := by
        simpa using Nat.le_of_not_lt h
      simp only [expandV4, if_neg h, ih, List.takeWhile_cons, hn, if_pos,
        List.reverse_cons, List.map_append, List.flatten_append]
      simp [List.append_assoc]

/-- Membership in the first-occurrence deduplication is membership in the
original list. -/
theorem mem_dedupFirst {a : String} {l : List String} :
    a ∈ dedupFirst l ↔ a ∈ l := by
  induction l with
  | nil => simp [dedupFirst]
  | cons x xs ih =>
    by_cases hax : a = x
    · subst hax
      simp [dedupFirst]
    · simp [dedupFirst, List.mem_filter, hax, ih]

/-- Appending an element already present does not change the
first-occurrence deduplication when the element is absent from the prefix. -/
theorem dedupFirst_append_not_mem {w : String} {l : List String}
    (h : w ∉ l) : dedupFirst (l ++ [w]) = dedupFirst l ++ [w] := by
  induction l with
  | nil => simp [dedupFirst]
  | cons x xs ih =>
    have hwx : w ≠ x := by
      intro hx
      exact h (hx ▸ List.mem_cons_self x xs)
    have hwxs : w ∉ xs := fun hm => h (List.mem_cons_of_mem x hm)
    show x :: (dedupFirst (xs ++ [w])).filter (fun y => decide (y ≠ x))
      = (x :: (dedupFirst xs).filter (fun y => decide (y ≠ x))) ++ [w]
    rw [ih hwxs, List.filter_append]
    simp [hwx]

/-- Appending an occurrence of an element already in the list leaves the
first-occurrence deduplication unchanged. -/
theorem dedupFirst_append_mem {w : String} {l : List String}
    (h : w ∈ l) : dedupFirst (l ++ [w]) = dedupFirst l := by
  induction l with
  | nil => cases h
  | cons x xs ih =>
    by_cases hw : w ∈ xs
    · show x :: (dedupFirst (xs ++ [w])).filter (fun y => decide (y ≠ x))
        = x :: (dedupFirst xs).filter (fun y => decide (y ≠ x))
      rw [ih hw]
    · have hwx : w = x := by
        rcases List.mem_cons.mp h with h1 | h2
        · exact h1
        · exact absurd h2 hw
      subst hwx
      show w :: (dedupFirst (xs ++ [w])).filter (fun y => decide (y ≠ w))
        = w :: (dedupFirst xs).filter (fun y => decide (y ≠ w))
      rw [dedupFirst_append_not_mem hw, List.filter_append]
      simp

/-- A strict JavaScript comparison implies the non-strict one. -/
theorem jlt_imp_jle {a b : JNum} (h : jlt a b = true) : jle a b = true := by
  cases a <;> cases b <;> simp_all [jlt, jle]
  exact le_of_lt h

/-- Under any encoding other than frequency (in particular binary), a match
contributes its raw weight, independently of word count and of frequency. -/
theorem contribution_binary (wc freq : Nat) (w : ℚ) :
    contribution "binary" wc freq w = w := rfl

/-- Rounding zero to any number of places gives zero. -/
theorem roundPlaces_zero (p : Option Nat) : roundPlaces p 0 = 0 := by
  cases p with
  | none => rfl
  | some p => simp [roundPlaces]

/-! ## Concrete instances used in counterexamples and witnesses -/

/-- A concrete n-gram generator over the three tokens a, b, c. -/
def gEx : Nat → List String := fun n =>
  if n = 2 then ["a b", "b c"] else if n = 3 then ["a b c"] else []

/-- A concrete n-gram generator over the two tokens hello, world. -/
def gEx2 : Nat → List String := fun n =>
  if n = 2 then ["hello world"] else []

/-- A concrete environment: a one-word future lexicon, one affect entry of
weight 2, a tokenizer wrapping any nonempty string in a single token, no
n-grams, and the identity locale translation. -/
def envW : Env :=
  ⟨["grow"], [("grow", 2)],
   fun s => if s = "" then none else some [s],
   fun _ _ => [], id⟩

/-- A concrete environment whose tokenizer always fails. -/
def envNone : Env :=
  ⟨[], [], fun _ => none, fun _ _ => [], id⟩

/-- A v4.0.1 options object carrying only noInt true. -/
def noIntOpts : Opts :=
  ⟨none, none, none, none, none, none, none, some (.bool true), none, none, none, none⟩

/-- A v2.0.1 options object carrying only output full. -/
def fullOptsV2 : OptsV2 :=
  ⟨none, none, none, none, some "full", none, none, none⟩

/-! ## Claims C5, C6 and C7 -/

/-- The claim C5 is false on the v4.0.1 code: with tokens a, b, c and the
default span lengths [2, 3], the expanded sequence starts with the trigram
and ends with the unigrams, not unigrams first followed by n-grams in
ascending span-length order. -/
theorem c5_ordering_counterexample :
    expandV4 gEx 3 [2, 3] ["a", "b", "c"] = ["a b c", "a b", "b c", "a", "b", "c"]
    ∧ expandV4 gEx 3 [2, 3] ["a", "b", "c"] ≠ ["a", "b", "c"] ++ gEx 2 ++ gEx 3 := by
  constructor
  · rfl
  · decide

/-- The claim C5 as amended: in v4.0.1 each n-gram group is prepended, so
when every requested span length fits the word count the expanded sequence
is the n-gram groups in reverse request order (for the default [2, 3]:
trigrams, then bigrams) followed by the unigrams, for every input and every
nGrams configuration. -/
theorem c5_expansion_order (g : Nat → List String) (wc : Nat) (ns : List Nat)
    (tokens : List String) (h : ∀ n ∈ ns, n ≤ wc) :
    expandV4 g wc ns tokens = ((ns.reverse).map g).flatten ++ tokens := by
  rw [expandV4_eq]
  have : ns.takeWhile (fun n => decide (n ≤ wc)) = ns :=
    List.takeWhile_eq_self_iff.mpr (by simpa using h)
  rw [this]

/-- Witness for the amended claim C5 at a concrete input. -/
theorem c5_expansion_order_witness :
    (∀ n ∈ [2, 3], n ≤ 3)
    ∧ expandV4 gEx 3 [2, 3] ["a", "b", "c"]
        = ((([2, 3] : List Nat).reverse).map gEx).flatten ++ ["a", "b", "c"] :=
  ⟨by decide, c5_expansion_order gEx 3 [2, 3] ["a", "b", "c"] (by decide)⟩

/-- The claim C6 is false on the v4.0.1 code: with the two tokens hello,
world and the requested span lengths [3, 2], the skipped length 3 makes
async.each cancel the remaining lengths, so the bigrams are not appended
although the token count reaches 2; the claim predicted that only the span
length 3 would be skipped. -/
theorem c6_skip_counterexample :
    expandV4 gEx2 2 [3, 2] ["hello", "world"] = ["hello", "world"]
    ∧ "hello world" ∈ gEx2 2
    ∧ "hello world" ∉ expandV4 gEx2 2 [3, 2] ["hello", "world"] := by
  refine ⟨rfl, by decide, by decide⟩

/-- The claim C6 as amended: in v4.0.1 the requested span lengths are
processed in list order and a length n is expanded exactly when the token
count is at least n and every earlier listed length also fits; the first
too-long length stops the loop silently (the call still succeeds with the
groups processed so far prepended in reverse order). -/
theorem c6_skip_semantics (g : Nat → List String) (wc : Nat) (ns : List Nat)
    (tokens : List String) :
    expandV4 g wc ns tokens =
      (((ns.takeWhile (fun n => decide (n ≤ wc))).reverse).map g).flatten ++ tokens :=
  expandV4_eq g wc ns tokens

/-- The claim C7 for the v4.0.1 code: a supplied numeric min or max bound is
kept verbatim (in particular the falsy value 0 becomes the bound 0 and is
then used by the threshold filter), while an absent bound takes the
documented infinity default. -/
theorem c7_falsy_bounds_respected :
    (∀ q : ℚ, (resolveMinMax (some (.num (.fin q))) none).1 = .fin q)
    ∧ (∀ q : ℚ, (resolveMinMax none (some (.num (.fin q)))).2 = .fin q)
    ∧ resolveMinMax (some (.num (.fin 0))) (some (.num (.fin 0))) = (.fin 0, .fin 0)
    ∧ resolveMinMax none none = (.negInf, .posInf)
    ∧ getMatches [("grow", 1)] [("grow", -1)] (.fin 0) .posInf = []
    ∧ getMatches [("grow", 1)] [("grow", 1)] (.fin 0) .posInf = [("grow", 1, 1)] := by
  refine ⟨fun q => rfl, fun q => rfl, rfl, rfl, by decide, by decide⟩

/-! ## Claim C2 -/

/-- The claim C2: every term of the final match set is a member of the
future vocabulary, has an entry in the affect lexicon giving exactly its
recorded weight, and that weight lies within the caller-supplied min and max
bounds; hence no other term ever appears in the match set. -/
theorem c2_matchset_invariant
    (env : Env) (mn mx : JNum) (tokens : List String)
    (t : String) (c : Nat) (w : ℚ)
    (hMem : (t, c, w) ∈ pipelineMatches env mn mx tokens) :
    t ∈ env.futureLex
    ∧ env.affectLex.lookup t = some w
    ∧ jle mn (.fin w) = true
    ∧ jle (.fin w) mx = true := by
  unfold pipelineMatches getMatches at hMem
  rcases List.mem_filterMap.mp hMem with ⟨tc, htc, hf⟩
  split at hf
  case h_2 => cases hf
  case h_1 w' hlk =>
    split at hf
    case isFalse => cases hf
    case isTrue hcond =>
      have hEq : (tc.1, tc.2, w') = (t, c, w) := Option.some.inj hf
      have ht1 : t = tc.1 := (congrArg Prod.fst hEq).symm
      have hw' : w = w' := (congrArg (fun p => p.2.2) hEq).symm
      obtain ⟨hjlt, hjle⟩ : jlt mn (.fin w') = true ∧ jle (.fin w') mx = true := by
        simpa using hcond
      have hfut : tc.1 ∈ env.futureLex := by
        unfold itemCount at htc
        rcases List.mem_map.mp htc with ⟨t0, ht0, hback⟩
        have h1 : t0 ∈ getFuture env.futureLex tokens := mem_dedupFirst.mp ht0
        unfold getFuture at h1
        have h2 := (List.mem_filter.mp h1).2
        have h3 : t0 ∈ env.futureLex := by simpa using h2
        have h4 : tc.1 = t0 := by rw [← hback]
        rw [h4]
        exact h3
      rw [ht1, hw']
      exact ⟨hfut, hlk, jlt_imp_jle hjlt, hjle⟩

/-- Witness for the claim C2 at a concrete input. -/
theorem c2_matchset_invariant_witness :
    (("grow", 1, (2 : ℚ)) ∈ pipelineMatches envW .negInf .posInf ["grow"])
    ∧ ("grow" ∈ envW.futureLex
       ∧ envW.affectLex.lookup "grow" = some 2
       ∧ jle .negInf (.fin 2) = true
       ∧ jle (.fin 2) .posInf = true) :=
  ⟨by decide,
   c2_matchset_invariant envW .negInf .posInf ["grow"] "grow" 1 2 (by decide)⟩

/-! ## Claim C4 -/

/-- The claim C4: under binary encoding the aggregate lex score is invariant
to term frequency: appending a further occurrence of a word already present
in the expanded token sequence leaves the score unchanged, for any word
counts (which the binary encoding ignores). -/
theorem c4_binary_frequency_invariant
    (env : Env) (mn mx : JNum) (intQ : ℚ) (places : Option Nat)
    (wc wcB : Nat) (tokens : List String) (w : String)
    (hMem : w ∈ tokens) :
    doLex (pipelineMatches env mn mx (tokens ++ [w])) intQ "binary" wcB places
      = doLex (pipelineMatches env mn mx tokens) intQ "binary" wc places := by
  have hgf : getFuture env.futureLex (tokens ++ [w]) = getFuture env.futureLex tokens := by
    unfold getFuture
    rw [dedupFirst_append_mem hMem]
  have hpm : pipelineMatches env mn mx (tokens ++ [w]) = pipelineMatches env mn mx tokens := by
    unfold pipelineMatches
    rw [hgf]
  rw [hpm]
  simp [doLex, contribution_binary]

/-- Witness for the claim C4 at a concrete input. -/
theorem c4_binary_frequency_invariant_witness :
    ("grow" ∈ ["grow"])
    ∧ doLex (pipelineMatches envW .negInf .posInf (["grow"] ++ ["grow"]))
          intercept "binary" 2 none
        = doLex (pipelineMatches envW .negInf .posInf ["grow"])
          intercept "binary" 1 none :=
  ⟨by decide,
   c4_binary_frequency_invariant envW .negInf .posInf intercept none 1 2
     ["grow"] "grow" (by decide)⟩

/-! ## Claims C1 and C8 -/

/-- The claim C1: when the intercept is enabled (noInt absent or false) and
the output option is lex, an input whose expanded token sequence produces
zero matches scores exactly the intercept constant 5.037104721, optionally
rounded when places is set. -/
theorem c1_zero_matches_score_intercept
    (env : Env) (opts : Opts) (v : JVal) (toks : List String)
    (hInt : opts.noInt = none ∨ opts.noInt = some (.bool false))
    (hOut : opts.output = none ∨ opts.output = some "lex")
    (hTr : v.truthy = true)
    (hTok : env.tokenizer (normalizeInput env (opts.locale.getD "US") v) = some toks)
    (hZero : pipelineMatches env (resolveMinMax opts.min opts.max).1
        (resolveMinMax opts.min opts.max).2
        (expandTokens env (normalizeInput env (opts.locale.getD "US") v)
          (resolveNGrams opts.nGrams) toks) = []) :
    optimismo env v opts = .lexR (roundPlaces opts.places intercept) := by
  have hIntQ : (if opts.noInt = some (JVal.bool true) then (0 : ℚ) else intercept)
      = intercept := by
    rcases hInt with h | h <;> rw [h] <;> rfl
  have hOutS : opts.output.getD "lex" = "lex" := by
    rcases hOut with h | h <;> rw [h] <;> rfl
  have hm : containsCI "lex" "matches" = false := rfl
  have hfu : containsCI "lex" "full" = false := rfl
  unfold optimismo
  rw [hTr]
  simp only [Bool.not_true, Bool.false_eq_true, if_false, hIntQ, hOutS, hTok, hZero,
    hm, hfu, doLex, List.map_nil, List.sum_nil, zero_add]

/-- Witness for the claim C1 at a concrete input. -/
theorem c1_zero_matches_score_intercept_witness :
    optimismo envW (.str "hello") noOpts = .lexR (roundPlaces none intercept) :=
  c1_zero_matches_score_intercept envW noOpts (.str "hello") ["hello"]
    (Or.inl rfl) (Or.inl rfl) rfl rfl rfl

/-- The claim C8: when the caller disables the intercept with noInt true,
the intercept term added to the aggregate is 0, so an input with zero
matches scores 0 (the lex output carries the value 0, not the intercept
constant). -/
theorem c8_noint_zero_matches_zero
    (env : Env) (opts : Opts) (v : JVal) (toks : List String)
    (hInt : opts.noInt = some (.bool true))
    (hOut : opts.output = none ∨ opts.output = some "lex")
    (hTr : v.truthy = true)
    (hTok : env.tokenizer (normalizeInput env (opts.locale.getD "US") v) = some toks)
    (hZero : pipelineMatches env (resolveMinMax opts.min opts.max).1
        (resolveMinMax opts.min opts.max).2
        (expandTokens env (normalizeInput env (opts.locale.getD "US") v)
          (resolveNGrams opts.nGrams) toks) = []) :
    optimismo env v opts = .lexR 0 := by
  have hIntQ : (if opts.noInt = some (JVal.bool true) then (0 : ℚ) else intercept)
      = 0 := by
    rw [hInt]
    rfl
  have hOutS : opts.output.getD "lex" = "lex" := by
    rcases hOut with h | h <;> rw [h] <;> rfl
  have hm : containsCI "lex" "matches" = false := rfl
  have hfu : containsCI "lex" "full" = false := rfl
  unfold optimismo
  rw [hTr]
  simp only [Bool.not_true, Bool.false_eq_true, if_false, hIntQ, hOutS, hTok, hZero,
    hm, hfu, doLex, List.map_nil, List.sum_nil, zero_add, add_zero, roundPlaces_zero]

/-- Witness for the claim C8 at a concrete input. -/
theorem c8_noint_zero_matches_zero_witness :
    optimismo envW (.str "hello") noIntOpts = .lexR 0 :=
  c8_noint_zero_matches_zero envW noIntOpts (.str "hello") ["hello"]
    rfl (Or.inl rfl) rfl rfl rfl

/-! ## Claim C3 -/

/-- The claim C3: null and undefined inputs give the null sentinel without
throwing, the empty string gives the null sentinel, and any input on which
the tokenizer yields no tokens gives the null sentinel, regardless of the
supplied options (the embedding is total, so no failure can escape). -/
theorem c3_null_sentinels (env : Env) (opts : Opts) :
    optimismo env .null opts = .nullR
    ∧ optimismo env .undef opts = .nullR
    ∧ optimismo env (.str "") opts = .nullR
    ∧ ∀ v : JVal, v.truthy = true →
        env.tokenizer (normalizeInput env (opts.locale.getD "US") v) = none →
        optimismo env v opts = .nullR := by
  refine ⟨rfl, rfl, rfl, fun v hTr hTok => ?_⟩
  unfold optimismo
  rw [hTr]
  simp only [Bool.not_true, Bool.false_eq_true, if_false, hTok]

/-- Witness for the claim C3 at concrete inputs. -/
theorem c3_null_sentinels_witness :
    optimismo envNone .null noOpts = .nullR
    ∧ optimismo envNone (.str "x") noOpts = .nullR :=
  ⟨(c3_null_sentinels envNone noOpts).1,
   (c3_null_sentinels envNone noOpts).2.2.2 (.str "x") rfl rfl⟩

/-! ## Claim C9 -/

/-- The claim C9 is false on the code: the guard is a JavaScript truthiness
check, so the falsy number 0 is given the null sentinel even though it is
neither null nor undefined and the tokenizer would have succeeded on its
stringification. -/
theorem c9_falsy_zero_counterexample :
    optimismo envW (.num (.fin 0)) noOpts = .nullR
    ∧ JVal.num (.fin 0) ≠ .null
    ∧ JVal.num (.fin 0) ≠ .undef
    ∧ envW.tokenizer "0" = some ["0"] :=
  ⟨rfl, by decide, by decide, rfl⟩

/-- The claim C9 as amended: the pre-tokenization null sentinel is produced
exactly for falsy inputs (null, undefined, the empty string, 0, NaN and
false); every truthy input is stringified and the pipeline proceeds, the
sentinel then arising only from tokenizer failure. -/
theorem c9_sentinel_iff_falsy (env : Env) (opts : Opts) (v : JVal) :
    (v.truthy = false → optimismo env v opts = .nullR)
    ∧ (v.truthy = true → ∀ toks : List String,
        env.tokenizer (normalizeInput env (opts.locale.getD "US") v) = some toks →
        optimismo env v opts ≠ .nullR) := by
  constructor
  · intro hTr
    unfold optimismo
    rw [hTr]
    rfl
  · intro hTr toks hTok
    unfold optimismo
    rw [hTr]
    simp only [Bool.not_true, Bool.false_eq_true, if_false, hTok]
    split
    · simp
    · split <;> simp

/-- Witness for the amended claim C9 at concrete inputs. -/
theorem c9_sentinel_iff_falsy_witness :
    optimismo envW (.bool false) noOpts = .nullR
    ∧ optimismo envW (.str "hi") noOpts ≠ .nullR :=
  ⟨(c9_sentinel_iff_falsy envW noOpts (.bool false)).1 rfl,
   (c9_sentinel_iff_falsy envW noOpts (.str "hi")).2 rfl ["hi"] rfl⟩

/-! ## Claim C10 -/

/-- The claim C10: in the v2.0.1 implementation, with output full, the
combined object is assembled only inside the async.parallel completion
callback, whose return value is discarded, and optimismo itself returns
undefined to the caller. -/
theorem c10_full_returns_undefined
    (env : Env) (opts : OptsV2) (v : JVal) (toks : List String)
    (hTr : v.truthy = true)
    (hTok : env.tokenizer (lowerStr (trimStr v.toJsString)) = some toks)
    (hOut : opts.output = some "full") :
    optimismoV2 env v opts = .undefR := by
  have hOutS : strOr opts.output "lex" = "full" := by
    rw [hOut]
    rfl
  have hne : ("full" : String) ≠ "matches" := by decide
  unfold optimismoV2
  rw [hTr]
  simp only [Bool.not_true, Bool.false_eq_true, if_false, hTok, hOutS, hne,
    if_neg, if_pos]

/-- Witness for the claim C10 at a concrete input. -/
theorem c10_full_returns_undefined_witness :
    optimismoV2 envW (.str "hi") fullOptsV2 = .undefR :=
  c10_full_returns_undefined envW fullOptsV2 (.str "hi") ["hi"] rfl rfl rfl

end Optimismo
